import Mathlib

/-!
Shallow embedding of the MQTT v3.1.1 client codec of the `sake` repository
(src/mqtt/mod.rs, connect.rs, publish.rs, subscribe.rs, puback.rs, pubrec.rs,
pubrel.rs, pubcomp.rs, connack.rs).

Byte buffers and streams are `List Nat` (each element a byte value).  Rust
strings are represented by their UTF-8 byte lists.  Machine arithmetic is
modelled on `Nat` with explicit truncation (`% 2^32`, `% 2^64`) where the
source performs an `as` cast, and with an explicit `.panic` outcome where the
source performs checked integer arithmetic that can overflow (Rust integer
overflow is a program error; with overflow checks enabled it panics) or where
the source itself panics (`Qos::from` on a value above 2).  Fallible readers
return `Except IOErr (value, remaining stream)`; writers take the buffer and
return the extended buffer, paired with the result the source returns.
-/

namespace Sake

/-- Failure outcomes of the embedded reader/writer functions:
end of stream, the `TransportError::PayloadTooLong` value, invalid UTF-8,
a malformed packet, and a Rust panic. -/
inductive IOErr where
  | eof
  | payloadTooLong
  | invalidUtf8
  | malformedPacket
  | panic
deriving DecidableEq, Repr

def U32_MOD : Nat := 2 ^ 32

def U64_MOD : Nat := 2 ^ 64

/-- mod.rs line 44: maximum encodable remaining length. -/
def MAX_PAYLOAD_SIZE : Nat := 268435455

/-- Reading a single byte from the stream (byteorder read_u8). -/
def read_u8 : List Nat → Except IOErr (Nat × List Nat)
  | [] => .error .eof
  | b :: rest => .ok (b, rest)

/-- Reading a big-endian u16 (byteorder read_u16 NetworkEndian). -/
def read_u16 : List Nat → Except IOErr (Nat × List Nat)
  | b0 :: b1 :: rest => .ok (b0 * 256 + b1, rest)
  | _ => .error .eof

/-- Read::read_exact into a buffer of size n. -/
def read_exact (n : Nat) (buf : List Nat) : Except IOErr (List Nat × List Nat) :=
  if n ≤ buf.length then .ok (buf.take n, buf.drop n) else .error .eof

/-- Big-endian bytes of a u16 value (byteorder write_u16 NetworkEndian);
the explicit mod mirrors the `as u16` narrowing at the call sites. -/
def u16be (n : Nat) : List Nat := [n % 65536 / 256, n % 256]

/-- The loop of protocol::write_remaining_length (mod.rs lines 81-95):
emit x % 128 with the continuation bit when the quotient is nonzero,
divide by 128, repeat until the quotient reaches zero.  Threads the output
buffer and the byte count exactly as the source loop does. -/
def wrlLoop (buf : List Nat) (x : Nat) (count : Nat) : List Nat × Nat :=
  let byte := x % 128
  if h : x / 128 = 0 then (buf ++ [byte], count + 1)
  else wrlLoop (buf ++ [byte ||| 128]) (x / 128) (count + 1)
termination_by x
decreasing_by
  exact Nat.div_lt_self (Nat.pos_of_ne_zero fun hx => h (by simp [hx])) (by omega)

/-- protocol::write_remaining_length (mod.rs lines 73-98): rejects values
above MAX_PAYLOAD_SIZE up front (buffer untouched), otherwise runs the
encode loop and returns the number of bytes written. -/
def write_remaining_length (buf : List Nat) (len : Nat) :
    List Nat × Except IOErr Nat :=
  if len > MAX_PAYLOAD_SIZE then (buf, .error .payloadTooLong)
  else
    let r := wrlLoop buf len 0
    (r.1, .ok r.2)

/-- The while loop of protocol::read_remaining_length (mod.rs lines 56-60):
while the continuation bit of c is set, add ((c and 127) * mul truncated to
u32) to val (checked u32 addition), multiply mul by 128 (checked u64
multiplication), and read the next byte.  The checked operations are
modelled as `.panic` outcomes. -/
def rrlLoop (c : Nat) (mul : Nat) (val : Nat) (buf : List Nat) :
    Except IOErr (Nat × List Nat) :=
  if c &&& 128 ≠ 0 then
    if U64_MOD ≤ (c &&& 127) * mul then .error .panic
    else if U32_MOD ≤ val + (c &&& 127) * mul % U32_MOD then .error .panic
    else if U64_MOD ≤ mul * 128 then .error .panic
    else
      match buf with
      | [] => .error .eof
      | c2 :: rest => rrlLoop c2 (mul * 128) (val + (c &&& 127) * mul % U32_MOD) rest
  else .ok (val, buf)
termination_by structural buf

/-- protocol::read_remaining_length (mod.rs lines 50-62): reads the first
byte, initialises val with its low 7 bits only when its continuation bit is
clear, then runs the accumulation loop. -/
def read_remaining_length (buf : List Nat) : Except IOErr (Nat × List Nat) :=
  match buf with
  | [] => .error .eof
  | c :: rest =>
    rrlLoop c 1 (if c &&& 128 = 0 then c &&& 127 else 0) rest

/-- Whether b is a UTF-8 continuation byte (0x80..0xBF). -/
def utf8ContByte (b : Nat) : Bool := 128 ≤ b && b ≤ 191

/-- Validity of a byte list as UTF-8, as enforced by String::from_utf8 in
protocol::read_string: ASCII, and 2/3/4-byte sequences with the standard
exclusions of overlong forms, surrogates and values above U+10FFFF. -/
def utf8Valid : List Nat → Bool
  | [] => true
  | b :: rest =>
    if b ≤ 127 then utf8Valid rest
    else if 194 ≤ b && b ≤ 223 then
      match rest with
      | c1 :: rest2 => utf8ContByte c1 && utf8Valid rest2
      | _ => false
    else if 224 ≤ b && b ≤ 239 then
      match rest with
      | c1 :: c2 :: rest2 =>
        (if b = 224 then 160 ≤ c1 && c1 ≤ 191
         else if b = 237 then 128 ≤ c1 && c1 ≤ 159
         else utf8ContByte c1) && utf8ContByte c2 && utf8Valid rest2
      | _ => false
    else if 240 ≤ b && b ≤ 244 then
      match rest with
      | c1 :: c2 :: c3 :: rest2 =>
        (if b = 240 then 144 ≤ c1 && c1 ≤ 191
         else if b = 244 then 128 ≤ c1 && c1 ≤ 143
         else utf8ContByte c1) && utf8ContByte c2 && utf8ContByte c3 && utf8Valid rest2
      | _ => false
    else false

/-- protocol::read_string (mod.rs lines 129-140): a big-endian u16 length,
that many bytes, decoded as UTF-8 (error on invalid UTF-8).  The returned
string is represented by its byte list. -/
def read_string (buf : List Nat) : Except IOErr (List Nat × List Nat) :=
  match read_u16 buf with
  | .error e => .error e
  | .ok (length, rest) =>
    match read_exact length rest with
    | .error e => .error e
    | .ok (bytes, rest2) =>
      if utf8Valid bytes then .ok (bytes, rest2) else .error .invalidUtf8

/-- protocol::write_bytes (mod.rs lines 143-145): raw bytes, no prefix. -/
def write_bytes (buf : List Nat) (bytes : List Nat) : List Nat := buf ++ bytes

/-- protocol::write_string (mod.rs lines 148-152): big-endian u16 length
(the source narrows the usize length with an `as u16` cast) then the raw
bytes of the string. -/
def write_string (buf : List Nat) (s : List Nat) : List Nat :=
  buf ++ u16be s.length ++ s

/-- PacketType (mod.rs lines 155-173). -/
inductive PacketType where
  | connect
  | connack
  | publish
  | puback
  | pubrec
  | pubrel
  | pubcomp
  | subscribe
  | disconnect
  | unknown
deriving DecidableEq, Repr

/-- From u8 for PacketType (mod.rs lines 200-215): 1..8 and 0xE are known,
everything else maps to Unknown. -/
def PacketType.fromU8 (orig : Nat) : PacketType :=
  match orig with
  | 0x1 => .connect
  | 0x2 => .connack
  | 0x3 => .publish
  | 0x4 => .puback
  | 0x5 => .pubrec
  | 0x6 => .pubrel
  | 0x7 => .pubcomp
  | 0x8 => .subscribe
  | 0xE => .disconnect
  | _ => .unknown

/-- The repr(u8) discriminant of PacketType, as produced by the
`self.packet_type as u8` cast in FixedHeader::write: the enum lists
Connect = 1 through Subscribe = 8, then Disconnect = 9 and Unknown = 10. -/
def PacketType.reprU8 : PacketType → Nat
  | .connect => 1
  | .connack => 2
  | .publish => 3
  | .puback => 4
  | .pubrec => 5
  | .pubrel => 6
  | .pubcomp => 7
  | .subscribe => 8
  | .disconnect => 9
  | .unknown => 10

/-- Qos (mod.rs lines 217-223). -/
inductive Qos where
  | atMostOnce
  | atLeastOnce
  | exactlyOnce
deriving DecidableEq, Repr

/-- From u8 for Qos (mod.rs lines 225-234); the source panics on any value
above 2, modelled as `none`. -/
def Qos.fromU8 : Nat → Option Qos
  | 0 => some .atMostOnce
  | 1 => some .atLeastOnce
  | 2 => some .exactlyOnce
  | _ => none

/-- The u8 value of a Qos (mod.rs lines 236-244, also the repr(u8) cast
used in SubscribePacket::write). -/
def Qos.toU8 : Qos → Nat
  | .atMostOnce => 0
  | .atLeastOnce => 1
  | .exactlyOnce => 2

/-- FixedHeaderFlags (mod.rs lines 246-269). -/
structure FixedHeaderFlags where
  retain : Bool
  qos : Nat
  dup : Bool
deriving DecidableEq, Repr

/-- FixedHeaderFlags::from_byte (mod.rs lines 258-264): bit 0 is retain,
bits 1-2 are the QoS, bit 3 is dup. -/
def FixedHeaderFlags.from_byte (byte : Nat) : FixedHeaderFlags :=
  let flag0 := byte &&& 1 ≠ 0
  let flag1 := byte &&& 2 ≠ 0
  let flag2 := byte &&& 4 ≠ 0
  let flag3 := byte &&& 8 ≠ 0
  { retain := flag0
    qos := (if flag1 then 1 else 0) + 2 * (if flag2 then 1 else 0)
    dup := flag3 }

/-- FixedHeaderFlags::to_byte (mod.rs lines 266-268). -/
def FixedHeaderFlags.to_byte (f : FixedHeaderFlags) : Nat :=
  (if f.retain then 1 else 0) ||| (f.qos <<< 1) ||| ((if f.dup then 1 else 0) <<< 3)

/-- FixedHeader (mod.rs lines 289-294). -/
structure FixedHeader where
  packet_type : PacketType
  flags : FixedHeaderFlags
  remaining_length : Nat
deriving DecidableEq, Repr

/-- FixedHeader::new (mod.rs lines 311-317): the packet type comes from the
high nibble, the flags from the low bits of the byte. -/
def FixedHeader.new (byte : Nat) (remaining_length : Nat) : FixedHeader :=
  { packet_type := PacketType.fromU8 (byte >>> 4)
    flags := FixedHeaderFlags.from_byte byte
    remaining_length := remaining_length }

/-- FixedHeader::from_bytes (mod.rs lines 323-327). -/
def FixedHeader.from_bytes (buf : List Nat) : Except IOErr (FixedHeader × List Nat) :=
  match read_u8 buf with
  | .error e => .error e
  | .ok (opcode, rest) =>
    match read_remaining_length rest with
    | .error e => .error e
    | .ok (len, rest2) => .ok (FixedHeader.new opcode len, rest2)

/-- FixedHeader::write (mod.rs lines 329-336): control byte is the repr
discriminant shifted left 4, OR the low nibble of the flag byte, then the
remaining length encoding. -/
def FixedHeader.write (h : FixedHeader) (buf : List Nat) :
    List Nat × Except IOErr Unit :=
  let byte := (h.packet_type.reprU8 <<< 4) ||| (h.flags.to_byte &&& 0x0F)
  match write_remaining_length (buf ++ [byte]) h.remaining_length with
  | (buf2, .error e) => (buf2, .error e)
  | (buf2, .ok _) => (buf2, .ok ())

/-- PublishPacket (publish.rs lines 34-40); topic is UTF-8 bytes. -/
structure PublishPacket where
  packet_id : Nat
  qos : Nat
  topic : List Nat
  payload : List Nat
deriving DecidableEq, Repr

/-- PublishPacket::write (publish.rs lines 62-69): length-prefixed topic, a
big-endian packet id only when qos > 0, then the raw payload. -/
def PublishPacket.write (p : PublishPacket) (buf : List Nat) : List Nat :=
  let buf1 := write_string buf p.topic
  let buf2 := if p.qos > 0 then buf1 ++ u16be p.packet_id else buf1
  write_bytes buf2 p.payload

/-- PublishPacket::from_bytes (publish.rs lines 71-91): read the topic,
read a packet id when the header QoS is positive, then read exactly
`remaining_length - bytes_read` payload bytes.  The subtraction is on u32
with no underflow guard; an underflow is a panic under checked arithmetic,
modelled as the `.panic` outcome. -/
def PublishPacket.from_bytes (hdr : FixedHeader) (buf : List Nat) :
    Except IOErr (PublishPacket × List Nat) :=
  match read_string buf with
  | .error e => .error e
  | .ok (topic, rest) =>
    if hdr.flags.qos > 0 then
      match read_u16 rest with
      | .error e => .error e
      | .ok (pid, rest2) =>
        let bytesRead := 2 + topic.length + 2
        if hdr.remaining_length < bytesRead then .error .panic
        else
          match read_exact (hdr.remaining_length - bytesRead) rest2 with
          | .error e => .error e
          | .ok (payload, rest3) =>
            .ok ({ packet_id := pid, qos := hdr.flags.qos, topic := topic,
                   payload := payload }, rest3)
    else
      let bytesRead := 2 + topic.length
      if hdr.remaining_length < bytesRead then .error .panic
      else
        match read_exact (hdr.remaining_length - bytesRead) rest with
        | .error e => .error e
        | .ok (payload, rest3) =>
          .ok ({ packet_id := 0, qos := hdr.flags.qos, topic := topic,
                 payload := payload }, rest3)

/-- PubackPacket::write (puback.rs): a big-endian u16 packet id. -/
def pubackWrite (packet_id : Nat) (buf : List Nat) : List Nat :=
  buf ++ u16be packet_id

/-- PubackPacket::from_bytes (puback.rs): a big-endian u16 packet id. -/
def pubackFromBytes (buf : List Nat) : Except IOErr (Nat × List Nat) :=
  read_u16 buf

/-- PubrecPacket::write (pubrec.rs). -/
def pubrecWrite (packet_id : Nat) (buf : List Nat) : List Nat :=
  buf ++ u16be packet_id

/-- PubrecPacket::from_bytes (pubrec.rs). -/
def pubrecFromBytes (buf : List Nat) : Except IOErr (Nat × List Nat) :=
  read_u16 buf

/-- PubrelPacket::write (pubrel.rs). -/
def pubrelWrite (packet_id : Nat) (buf : List Nat) : List Nat :=
  buf ++ u16be packet_id

/-- PubrelPacket::from_bytes (pubrel.rs). -/
def pubrelFromBytes (buf : List Nat) : Except IOErr (Nat × List Nat) :=
  read_u16 buf

/-- PubcompPacket::write (pubcomp.rs). -/
def pubcompWrite (packet_id : Nat) (buf : List Nat) : List Nat :=
  buf ++ u16be packet_id

/-- PubcompPacket::from_bytes (pubcomp.rs). -/
def pubcompFromBytes (buf : List Nat) : Except IOErr (Nat × List Nat) :=
  read_u16 buf

/-- SubscriptionTopic (subscribe.rs lines 5-9); topic is UTF-8 bytes. -/
structure SubscriptionTopic where
  qos : Qos
  topic : List Nat
deriving DecidableEq, Repr

/-- SubscribePacket::write (subscribe.rs lines 25-34): big-endian packet
id, then for each subscription the length-prefixed topic followed by the
1-byte requested QoS. -/
def subscribeWrite (packet_id : Nat) (topics : List SubscriptionTopic)
    (buf : List Nat) : List Nat :=
  topics.foldl (fun b s => write_string b s.topic ++ [s.qos.toU8])
    (buf ++ u16be packet_id)

/-- ConnectFlags (connect.rs lines 57-65). -/
structure ConnectFlags where
  clean_session : Bool
  will : Bool
  will_qos : Nat
  will_retain : Bool
  password : Bool
  username : Bool
deriving DecidableEq, Repr

/-- ConnectFlags::new (connect.rs lines 83-92): only clean_session is
caller-controlled, everything else is off. -/
def ConnectFlags.new (clean_session : Bool) : ConnectFlags :=
  { clean_session := clean_session, will := false, will_qos := 0,
    will_retain := false, password := false, username := false }

/-- ConnectFlags::write (connect.rs lines 106-122): one byte with bit 1 for
clean session, bit 2 for will, bit 7 for username, bit 6 for password;
returns the byte count 1. -/
def ConnectFlags.write (f : ConnectFlags) (buf : List Nat) : List Nat × Nat :=
  let cf := (if f.clean_session then 0x02 else 0) |||
            (if f.will then 0x04 else 0) |||
            (if f.username then 0x80 else 0) |||
            (if f.password then 0x40 else 0)
  (buf ++ [cf], 1)

/-- ConnectVariableHeader (connect.rs lines 137-141). -/
structure ConnectVariableHeader where
  flags : ConnectFlags
  keepalive : Nat
deriving DecidableEq, Repr

/-- ConnectVariableHeader::new (connect.rs lines 150-155). -/
def ConnectVariableHeader.new (clean_session : Bool) (keepalive : Nat) :
    ConnectVariableHeader :=
  { flags := ConnectFlags.new clean_session, keepalive := keepalive }

/-- ConnectVariableHeader::write (connect.rs lines 168-172): the flag byte
followed by the big-endian keepalive; nothing else is emitted. -/
def ConnectVariableHeader.write (vh : ConnectVariableHeader) (buf : List Nat) :
    List Nat × Nat :=
  let r := vh.flags.write buf
  (r.1 ++ u16be vh.keepalive, r.2 + 2)

/-- ConnectPayload (connect.rs lines 182-189); strings are UTF-8 bytes. -/
structure ConnectPayload where
  client_id : Option (List Nat)
  will_topic : Option (List Nat)
  will_message : Option (List Nat)
  username : Option (List Nat)
  password : Option (List Nat)
deriving DecidableEq, Repr

/-- ConnectPayload::new (connect.rs lines 203-211). -/
def ConnectPayload.new (client_id : List Nat) : ConnectPayload :=
  { client_id := some client_id, will_topic := none, will_message := none,
    username := none, password := none }

/-- ConnectPayload::write (connect.rs lines 213-241): emits, in order, the
optional client id, will topic and will message as length-prefixed strings;
the source then emits the username and password slots from two further
if-lets that both bind `self.will_message` (not the username or password
fields).  Returns the sum of the raw string lengths, as the source does. -/
def ConnectPayload.write (p : ConnectPayload) (buf : List Nat) : List Nat × Nat :=
  let s1 := match p.client_id with
    | some s => (write_string buf s, s.length)
    | none => (buf, 0)
  let s2 := match p.will_topic with
    | some s => (write_string s1.1 s, s1.2 + s.length)
    | none => s1
  let s3 := match p.will_message with
    | some s => (write_string s2.1 s, s2.2 + s.length)
    | none => s2
  let s4 := match p.will_message with
    | some s => (write_string s3.1 s, s3.2 + s.length)
    | none => s3
  let s5 := match p.will_message with
    | some s => (write_string s4.1 s, s4.2 + s.length)
    | none => s4
  s5

/-- ConnectPacket (connect.rs lines 244-249). -/
structure ConnectPacket where
  fixed_header : FixedHeader
  variable_header : ConnectVariableHeader
  payload : ConnectPayload
deriving DecidableEq, Repr

/-- ConnectPacket::new (connect.rs lines 252-259): remaining length
10 + 2 + len(client id), control byte 0x10, keepalive 60. -/
def ConnectPacket.new (client_id : List Nat) (clean_session : Bool) :
    ConnectPacket :=
  { fixed_header := FixedHeader.new 0x10 (10 + 2 + client_id.length)
    variable_header := ConnectVariableHeader.new clean_session 60
    payload := ConnectPayload.new client_id }

/-- ConnectPacket::write (connect.rs lines 261-266): fixed header, then
variable header, then payload. -/
def ConnectPacket.write (c : ConnectPacket) (buf : List Nat) :
    List Nat × Except IOErr Nat :=
  match c.fixed_header.write buf with
  | (buf1, .error e) => (buf1, .error e)
  | (buf1, .ok _) =>
    let r2 := c.variable_header.write buf1
    let r3 := c.payload.write r2.1
    (r3.1, .ok 1)

/-- Request (mod.rs lines 353-382); strings are UTF-8 bytes. -/
inductive Request where
  | connect (client_id : List Nat) (clean_session : Bool)
  | publish (packet_id : Nat) (qos : Nat) (topic : List Nat) (payload : List Nat)
  | puback (packet_id : Nat)
  | pubrec (packet_id : Nat)
  | pubrel (packet_id : Nat)
  | pubcomp (packet_id : Nat)
  | subscribe (packet_id : Nat) (subscription_topics : List SubscriptionTopic)
  | disconnect
deriving DecidableEq, Repr

/-- encode_qos (mod.rs lines 399-407): clear or set bits 1 and 2 of the
byte according to the QoS; the u8 complements of the masks 2 and 4 are
0xFD and 0xFB. -/
def encode_qos (byte : Nat) (qos : Qos) : Nat :=
  match qos with
  | .atMostOnce => byte &&& 0xFD &&& 0xFB
  | .atLeastOnce => (byte &&& 0xFB) ||| 2
  | .exactlyOnce => (byte &&& 0xFD) ||| 4

/-- From Request for u8 (mod.rs lines 384-397): the control byte of each
variant; the Publish case converts the raw qos through Qos::from, which
panics (here: `none`) on values above 2. -/
def Request.controlByte : Request → Option Nat
  | .connect _ _ => some 0x10
  | .publish _ qos _ _ => (Qos.fromU8 qos).map (fun q => encode_qos 0x30 q)
  | .puback _ => some 0x40
  | .pubrec _ => some 0x50
  | .pubrel _ => some 0x62
  | .pubcomp _ => some 0x70
  | .subscribe _ _ => some 0x80
  | .disconnect => some 0xE0

/-- Serialize for Request (mod.rs lines 409-488): write the control byte,
then the variant-specific remaining length, then the body through the
per-packet writer.  The declared lengths are exactly the expressions of
the source: Connect 10 + 2 + len(client id); Publish 2 + len(topic) +
len(payload) + 2 if qos > 0; the four acks 2; Subscribe
2 + sum (2 + len(topic)); Disconnect 0. -/
def Request.serialize (req : Request) (buf : List Nat) :
    List Nat × Except IOErr Nat :=
  match req.controlByte with
  | none => (buf, .error .panic)
  | some cb =>
    let buf0 := buf ++ [cb]
    match req with
    | .connect client_id clean_session =>
      match write_remaining_length buf0 (10 + 2 + client_id.length) with
      | (buf1, .error e) => (buf1, .error e)
      | (buf1, .ok _) =>
        match (ConnectPacket.new client_id clean_session).write buf1 with
        | (buf2, .error e) => (buf2, .error e)
        | (buf2, .ok _) => (buf2, .ok 1)
    | .publish packet_id qos topic payload =>
      let len := 2 + topic.length + payload.length + (if qos > 0 then 2 else 0)
      match write_remaining_length buf0 len with
      | (buf1, .error e) => (buf1, .error e)
      | (buf1, .ok _) =>
        (PublishPacket.write
          { packet_id := packet_id, qos := qos, topic := topic,
            payload := payload } buf1, .ok 1)
    | .puback packet_id =>
      match write_remaining_length buf0 2 with
      | (buf1, .error e) => (buf1, .error e)
      | (buf1, .ok _) => (pubackWrite packet_id buf1, .ok 1)
    | .pubrec packet_id =>
      match write_remaining_length buf0 2 with
      | (buf1, .error e) => (buf1, .error e)
      | (buf1, .ok _) => (pubrecWrite packet_id buf1, .ok 1)
    | .pubrel packet_id =>
      match write_remaining_length buf0 2 with
      | (buf1, .error e) => (buf1, .error e)
      | (buf1, .ok _) => (pubrelWrite packet_id buf1, .ok 1)
    | .pubcomp packet_id =>
      match write_remaining_length buf0 2 with
      | (buf1, .error e) => (buf1, .error e)
      | (buf1, .ok _) => (pubcompWrite packet_id buf1, .ok 1)
    | .subscribe packet_id subscription_topics =>
      let len := 2 + (subscription_topics.map (fun s => 2 + s.topic.length)).sum
      match write_remaining_length buf0 len with
      | (buf1, .error e) => (buf1, .error e)
      | (buf1, .ok _) => (subscribeWrite packet_id subscription_topics buf1, .ok 1)
    | .disconnect =>
      match write_remaining_length buf0 0 with
      | (buf1, .error e) => (buf1, .error e)
      | (buf1, .ok _) => (buf1, .ok 1)

/-- Response (mod.rs lines 490-515); strings are UTF-8 bytes. -/
inductive Response where
  | connack (session_present : Bool) (return_code : Nat)
  | publish (packet_id : Nat) (qos : Nat) (topic : List Nat) (payload : List Nat)
  | puback (packet_id : Nat)
  | pubrec (packet_id : Nat)
  | pubrel (packet_id : Nat)
  | pubcomp (packet_id : Nat)
  | unknown
deriving DecidableEq, Repr

/-- Modelled from the spec: `ConnackPacket::from_bytes`, called by
Response::deserialize, is absent from the sources (connack.rs only has an
iterator-based `from_stream` with a different signature).  Per spec 4.4,
CONNACK is one session-present byte (zero or nonzero) and one return-code
byte, with fewer than 2 bytes a MalformedPacket error; return codes 0-5
are the named reasons and anything else maps to Unknown (discriminant 6),
matching the enum cast done in the Connack arm of Response::deserialize. -/
def connackFromBytes (buf : List Nat) :
    Except IOErr ((Bool × Nat) × List Nat) :=
  match buf with
  | sp :: rc :: rest => .ok ((sp ≠ 0, if rc ≤ 5 then rc else 6), rest)
  | _ => .error .malformedPacket

/-- Deserialize for Response (mod.rs lines 539-589): read a fixed header,
then dispatch on its packet type; every type other than Connack, Publish,
Puback, Pubrec, Pubrel and Pubcomp falls to the catch-all arm that yields
Response::Unknown without reading anything further. -/
def Response.deserialize (buf : List Nat) :
    Except IOErr (Response × List Nat) :=
  match FixedHeader.from_bytes buf with
  | .error e => .error e
  | .ok (hdr, rest) =>
    match hdr.packet_type with
    | .connack =>
      match connackFromBytes rest with
      | .error e => .error e
      | .ok ((sp, rc), rest2) => .ok (.connack sp rc, rest2)
    | .publish =>
      match PublishPacket.from_bytes hdr rest with
      | .error e => .error e
      | .ok (p, rest2) =>
        .ok (.publish p.packet_id p.qos p.topic p.payload, rest2)
    | .puback =>
      match pubackFromBytes rest with
      | .error e => .error e
      | .ok (pid, rest2) => .ok (.puback pid, rest2)
    | .pubrec =>
      match pubrecFromBytes rest with
      | .error e => .error e
      | .ok (pid, rest2) => .ok (.pubrec pid, rest2)
    | .pubrel =>
      match pubrelFromBytes rest with
      | .error e => .error e
      | .ok (pid, rest2) => .ok (.pubrel pid, rest2)
    | .pubcomp =>
      match pubcompFromBytes rest with
      | .error e => .error e
      | .ok (pid, rest2) => .ok (.pubcomp pid, rest2)
    | _ => .ok (.unknown, rest)

/-- Bytes emitted for an optional length-prefixed string field of the
CONNECT payload: the write_string encoding when present, nothing when
absent. -/
def optStringBytes : Option (List Nat) → List Nat
  | some s => u16be s.length ++ s
  | none => []

end Sake

namespace Sake

/-- C1: the claim states that decoding with read_remaining_length the bytes
produced by write_remaining_length returns the encoded value on all of
[0, 268435455].  It fails already at 128: the encoder produces [0x80, 0x01]
but the decoder returns 0, because the accumulation loop never adds the
payload bits of the final byte (the one with a clear continuation bit)
whenever at least one continuation byte precedes it. -/
theorem c1_varint_roundtrip_fails_at_128 :
    write_remaining_length [] 128 = ([0x80, 0x01], .ok 2) ∧
    read_remaining_length [0x80, 0x01] = .ok (0, []) ∧ (0 : Nat) ≠ 128 := by
  refine ⟨?_, rfl, by decide⟩
  simp +decide [write_remaining_length, wrlLoop, MAX_PAYLOAD_SIZE]

set_option maxRecDepth 4000 in
/-- C2: the claim states that Request::Publish serializes and then
deserializes to the same qos, topic and payload.  It fails for a QoS-0
publish with topic "a" (byte 97) and a 128-byte payload: the remaining
length 131 is encoded as [0x83, 0x01] but decoded back as 3 (the
read_remaining_length defect), so the decoder computes a payload size of
3 - 3 = 0 and returns an empty payload instead of the original 128
bytes. -/
theorem c2_publish_roundtrip_fails :
    (Request.publish 1 0 [97] (List.replicate 128 0)).serialize []
      = (48 :: 131 :: 1 :: 0 :: 1 :: 97 :: List.replicate 128 0, .ok 1) ∧
    Response.deserialize (48 :: 131 :: 1 :: 0 :: 1 :: 97 :: List.replicate 128 0)
      = .ok (.publish 0 0 [97] [], List.replicate 128 0) ∧
    ([] : List Nat) ≠ List.replicate 128 0 := by
  refine ⟨?_, rfl, by decide⟩
  simp +decide [Request.serialize, Request.controlByte, Qos.fromU8,
    encode_qos, write_remaining_length, wrlLoop, MAX_PAYLOAD_SIZE,
    PublishPacket.write, write_string, write_bytes, u16be]

/-- C3: the claim states that the declared remaining length equals the
number of body bytes written for every variant.  For Subscribe it does
not: with packet id 1 and one subscription (topic "a", QoS 0) the declared
length is 5 = 2 + (2 + 1), but the body written after the length byte is
6 bytes (packet id 2, topic length prefix 2, topic 1, requested-QoS byte
1) — the per-topic QoS byte is not counted. -/
theorem c3_subscribe_declared_length_short :
    (Request.subscribe 1 [⟨Qos.atMostOnce, [97]⟩]).serialize []
      = ([0x80, 5, 0, 1, 0, 1, 97, 0], .ok 1) ∧
    ([0x80, 5, 0, 1, 0, 1, 97, 0] : List Nat).length - 2 = 6 ∧ (5 : Nat) ≠ 6 := by
  refine ⟨?_, by decide, by decide⟩
  simp +decide [Request.serialize, Request.controlByte, write_remaining_length,
    wrlLoop, MAX_PAYLOAD_SIZE, subscribeWrite, write_string, u16be, Qos.toU8]

/-- C4: the claim (and the repository's own connect_tests::test_write)
states that ConnectPacket::new("test-id", false) writes
10 13 00 04 4D 51 54 54 04 00 00 3C 00 07 74 65 73 74 2D 69 64.  The code
instead writes 10 13 00 00 3C 00 07 74 65 73 74 2D 69 64: the protocol
name "MQTT" and the level byte 4 are never emitted, because
ConnectVariableHeader::write only writes the flag byte and the
keepalive. -/
theorem c4_connect_write_missing_protocol_name :
    (ConnectPacket.new [116, 101, 115, 116, 45, 105, 100] false).write []
      = ([0x10, 0x13, 0x00, 0x00, 0x3C, 0x00, 0x07,
          116, 101, 115, 116, 45, 105, 100], .ok 1) ∧
    ([0x10, 0x13, 0x00, 0x00, 0x3C, 0x00, 0x07,
      116, 101, 115, 116, 45, 105, 100] : List Nat)
      ≠ [0x10, 0x13, 0x00, 0x04, 0x4D, 0x51, 0x54, 0x54, 0x04, 0x00, 0x00,
         0x3C, 0x00, 0x07, 116, 101, 115, 116, 45, 105, 100] := by
  refine ⟨?_, by decide⟩
  simp +decide [ConnectPacket.new, ConnectPacket.write, FixedHeader.new,
    FixedHeader.write, FixedHeaderFlags.from_byte, FixedHeaderFlags.to_byte,
    PacketType.fromU8, PacketType.reprU8, write_remaining_length,
    wrlLoop, MAX_PAYLOAD_SIZE, ConnectVariableHeader.new,
    ConnectVariableHeader.write, ConnectFlags.new, ConnectFlags.write,
    ConnectPayload.new, ConnectPayload.write, write_string, u16be]

/-- C6: write_remaining_length produces the reference encodings at every
boundary value, and every length above 268435455 fails with
PayloadTooLong, leaving the buffer exactly as it was. -/
theorem c6_write_remaining_length_boundaries :
    write_remaining_length [] 0 = ([0x00], .ok 1) ∧
    write_remaining_length [] 127 = ([0x7F], .ok 1) ∧
    write_remaining_length [] 128 = ([0x80, 0x01], .ok 2) ∧
    write_remaining_length [] 16383 = ([0xFF, 0x7F], .ok 2) ∧
    write_remaining_length [] 16384 = ([0x80, 0x80, 0x01], .ok 3) ∧
    write_remaining_length [] 268435455 = ([0xFF, 0xFF, 0xFF, 0x7F], .ok 4) ∧
    ∀ (buf : List Nat) (len : Nat), len > 268435455 →
      write_remaining_length buf len = (buf, .error .payloadTooLong) := by
  refine ⟨?_, ?_, ?_, ?_, ?_, ?_, ?_⟩
  · simp +decide [write_remaining_length, wrlLoop, MAX_PAYLOAD_SIZE]
  · simp +decide [write_remaining_length, wrlLoop, MAX_PAYLOAD_SIZE]
  · simp +decide [write_remaining_length, wrlLoop, MAX_PAYLOAD_SIZE]
  · simp +decide [write_remaining_length, wrlLoop, MAX_PAYLOAD_SIZE]
  · simp +decide [write_remaining_length, wrlLoop, MAX_PAYLOAD_SIZE]
  · simp +decide [write_remaining_length, wrlLoop, MAX_PAYLOAD_SIZE]
  · intro buf len h
    unfold write_remaining_length MAX_PAYLOAD_SIZE
    rw [if_pos h]

/-- Witness for C6 at the concrete over-limit input 268435456 with a
nonempty buffer. -/
theorem c6_write_remaining_length_boundaries_witness :
    (268435456 : Nat) > 268435455 ∧
    write_remaining_length [7] 268435456 = ([7], .error .payloadTooLong) :=
  ⟨by decide,
   c6_write_remaining_length_boundaries.2.2.2.2.2.2 [7] 268435456 (by decide)⟩

/-- C7 counterexample: on an input whose first five bytes all carry the
continuation bit, read_remaining_length does not fail at the fifth byte
(the code has no MalformedRemainingLength error at all): it keeps reading
and returns Ok, here consuming six bytes and yielding 0. -/
theorem c7_five_continuation_bytes_do_not_fail :
    read_remaining_length [0x80, 0x80, 0x80, 0x80, 0x80, 0x00]
      = .ok (0, []) := rfl

/-- C7 amended: read_remaining_length imposes no four-byte limit and
defines no MalformedRemainingLength error; after five 0x80 continuation
bytes it keeps consuming, and any terminating byte c (continuation bit
clear) ends the loop successfully with the accumulated value (0 here,
since every continuation payload was 0 and the final byte's payload is
dropped), leaving exactly the bytes after the terminator. -/
theorem c7_read_remaining_length_reads_past_fifth_byte
    (c : Nat) (rest : List Nat) (h : c &&& 128 = 0) :
    read_remaining_length (0x80 :: 0x80 :: 0x80 :: 0x80 :: 0x80 :: c :: rest)
      = .ok (0, rest) := by
  have step : read_remaining_length (0x80 :: 0x80 :: 0x80 :: 0x80 :: 0x80 :: c :: rest)
      = rrlLoop c 34359738368 0 rest := rfl
  rw [step]
  unfold rrlLoop
  simp [h]

/-- Witness for the amended C7 at terminator byte 1 followed by one more
byte. -/
theorem c7_read_remaining_length_reads_past_fifth_byte_witness :
    (1 : Nat) &&& 128 = 0 ∧
    read_remaining_length [0x80, 0x80, 0x80, 0x80, 0x80, 1, 42]
      = .ok (0, [42]) :=
  ⟨by decide, c7_read_remaining_length_reads_past_fifth_byte 1 [42] (by decide)⟩

/-- C8 counterexample: decoding the stream 90 02 AA BB (type nibble 9 is
unknown, declared remaining length 2) yields Ok(Unknown) but leaves the
two declared body bytes AA BB unconsumed in the stream, contrary to the
claim that they are fully consumed. -/
theorem c8_unknown_type_body_left_in_stream :
    Response.deserialize [0x90, 0x02, 0xAA, 0xBB]
      = .ok (.unknown, [0xAA, 0xBB]) ∧ ([0xAA, 0xBB] : List Nat) ≠ [] :=
  ⟨rfl, by decide⟩

/-- C8 amended: for a fixed header whose type nibble maps to the Unknown
packet type, Response::deserialize returns Ok(Response::Unknown) without
an error, but it consumes only the fixed header (control byte plus the
remaining-length bytes); the body bytes declared by the remaining length
are not consumed and remain in the stream. -/
theorem c8_unknown_type_consumes_only_fixed_header
    (b n : Nat) (buf rest : List Nat)
    (hpt : PacketType.fromU8 (b >>> 4) = .unknown)
    (hrl : read_remaining_length buf = .ok (n, rest)) :
    Response.deserialize (b :: buf) = .ok (.unknown, rest) := by
  simp [Response.deserialize, FixedHeader.from_bytes, read_u8, hrl,
    FixedHeader.new, hpt]

/-- Witness for the amended C8 at control byte 0x90 with declared
remaining length 0. -/
theorem c8_unknown_type_consumes_only_fixed_header_witness :
    PacketType.fromU8 (0x90 >>> 4) = .unknown ∧
    read_remaining_length [0] = .ok (0, []) ∧
    Response.deserialize [0x90, 0] = .ok (.unknown, []) :=
  ⟨rfl, rfl, c8_unknown_type_consumes_only_fixed_header 0x90 0 [0] [] rfl rfl⟩

/-- C9: in ConnectPayload::write the username and password slots are
emitted from the will_message field: when will_message is some s, the
bytes after the client id and will topic are three copies of the
length-prefixed encoding of s (the will message itself, then the username
slot, then the password slot), whatever the username and password fields
hold; when will_message is none, no username or password bytes are
emitted at all, again regardless of those fields. -/
theorem c9_username_password_come_from_will_message
    (cid wt u p : Option (List Nat)) (s : List Nat) (buf : List Nat) :
    (ConnectPayload.write ⟨cid, wt, some s, u, p⟩ buf).1
      = buf ++ optStringBytes cid ++ optStringBytes wt
          ++ (u16be s.length ++ s) ++ (u16be s.length ++ s)
          ++ (u16be s.length ++ s) ∧
    (ConnectPayload.write ⟨cid, wt, none, u, p⟩ buf).1
      = buf ++ optStringBytes cid ++ optStringBytes wt := by
  cases cid <;> cases wt <;>
    simp [ConnectPayload.write, optStringBytes, write_string, List.append_assoc]

/-- Helper: read_string on a stream that starts with the length-prefixed
encoding of a byte list shorter than 65536 returns exactly that list and
the remaining stream. -/
theorem read_string_of_append (topic rest : List Nat)
    (hu : utf8Valid topic = true) (hlen : topic.length < 65536) :
    read_string (u16be topic.length ++ topic ++ rest) = .ok (topic, rest) := by
  have hval : topic.length % 65536 / 256 * 256 + topic.length % 256 = topic.length := by
    rw [Nat.mod_eq_of_lt hlen]
    exact Nat.div_add_mod' topic.length 256
  have hshape : u16be topic.length ++ topic ++ rest
      = topic.length % 65536 / 256 :: topic.length % 256 :: (topic ++ rest) := by
    simp [u16be]
  rw [hshape]
  unfold read_string read_u16
  simp only [hval]
  have hexact : read_exact topic.length (topic ++ rest) = .ok (topic, rest) := by
    unfold read_exact
    rw [if_pos (by simp)]
    rw [List.take_left, List.drop_left]
  rw [hexact]
  simp [hu]

/-- C10: PublishPacket::from_bytes derives the payload size as the
header's remaining length minus the consumed variable-header bytes
(2 + topic length, plus 2 more when the header QoS is positive), with an
unchecked u32 subtraction.  When the remaining length covers the consumed
bytes it reads exactly the difference as payload; when the remaining
length is smaller, the subtraction underflows and the function panics
(checked-arithmetic semantics, the `.panic` outcome) instead of returning
a decode error. -/
theorem c10_publish_payload_size_and_underflow
    (hdr : FixedHeader) (topic payloadSrc : List Nat) (a b : Nat)
    (hu : utf8Valid topic = true) (hlen : topic.length < 65536) :
    (hdr.flags.qos > 0 → 2 + topic.length + 2 ≤ hdr.remaining_length →
      hdr.remaining_length - (2 + topic.length + 2) ≤ payloadSrc.length →
      PublishPacket.from_bytes hdr
          (u16be topic.length ++ topic ++ [a, b] ++ payloadSrc)
        = .ok ({ packet_id := a * 256 + b, qos := hdr.flags.qos, topic := topic,
                 payload := payloadSrc.take
                   (hdr.remaining_length - (2 + topic.length + 2)) },
               payloadSrc.drop (hdr.remaining_length - (2 + topic.length + 2)))) ∧
    (hdr.flags.qos > 0 → hdr.remaining_length < 2 + topic.length + 2 →
      PublishPacket.from_bytes hdr
          (u16be topic.length ++ topic ++ [a, b] ++ payloadSrc)
        = .error .panic) ∧
    (hdr.flags.qos = 0 → 2 + topic.length ≤ hdr.remaining_length →
      hdr.remaining_length - (2 + topic.length) ≤ payloadSrc.length →
      PublishPacket.from_bytes hdr (u16be topic.length ++ topic ++ payloadSrc)
        = .ok ({ packet_id := 0, qos := hdr.flags.qos, topic := topic,
                 payload := payloadSrc.take
                   (hdr.remaining_length - (2 + topic.length)) },
               payloadSrc.drop (hdr.remaining_length - (2 + topic.length)))) ∧
    (hdr.flags.qos = 0 → hdr.remaining_length < 2 + topic.length →
      PublishPacket.from_bytes hdr (u16be topic.length ++ topic ++ payloadSrc)
        = .error .panic) := by
  have hread2 : read_string (u16be topic.length ++ topic ++ ([a, b] ++ payloadSrc))
      = .ok (topic, [a, b] ++ payloadSrc) :=
    read_string_of_append topic ([a, b] ++ payloadSrc) hu hlen
  have hread0 : read_string (u16be topic.length ++ topic ++ payloadSrc)
      = .ok (topic, payloadSrc) :=
    read_string_of_append topic payloadSrc hu hlen
  simp only [List.append_assoc, List.cons_append, List.nil_append] at hread2 hread0
  refine ⟨?_, ?_, ?_, ?_⟩
  · intro hq h1 h2
    have hne : ¬ (hdr.remaining_length < 2 + topic.length + 2) := by omega
    simp [PublishPacket.from_bytes, hread2, hq, hne, read_u16, read_exact, h2]
  · intro hq h3
    simp [PublishPacket.from_bytes, hread2, hq, h3, read_u16]
  · intro hq h1 h2
    have hne : ¬ (hdr.remaining_length < 2 + topic.length) := by omega
    simp [PublishPacket.from_bytes, hread0, hq, hne, read_exact, h2]
  · intro hq h3
    simp [PublishPacket.from_bytes, hread0, hq, h3]

/-- Witness for C10: a QoS-1 header with remaining length 7, topic "a"
(consuming 2 + 1 + 2 = 5 bytes), packet id 5 and three trailing bytes:
exactly 7 - 5 = 2 payload bytes are read. -/
theorem c10_publish_payload_size_and_underflow_witness :
    utf8Valid [97] = true ∧ ([97] : List Nat).length < 65536 ∧
    PublishPacket.from_bytes ⟨PacketType.publish, ⟨false, 1, false⟩, 7⟩
        [0, 1, 97, 0, 5, 1, 2, 3]
      = .ok ({ packet_id := 5, qos := 1, topic := [97], payload := [1, 2] }, [3]) :=
  ⟨rfl, by decide,
   (c10_publish_payload_size_and_underflow
      ⟨PacketType.publish, ⟨false, 1, false⟩, 7⟩ [97] [1, 2, 3] 0 5 rfl
      (by decide)).1 (by decide) (by decide) (by decide)⟩

/-- Helper: the write_remaining_length loop only appends to the buffer. -/
theorem wrlLoop_suffix : ∀ (x : Nat) (buf : List Nat) (count : Nat),
    ∃ Y, (wrlLoop buf x count).1 = buf ++ Y := by
  intro x
  induction x using Nat.strong_induction_on with
  | _ x ih =>
    intro buf count
    unfold wrlLoop
    split
    · exact ⟨[x % 128], rfl⟩
    · rename_i h
      obtain ⟨Y, hY⟩ := ih (x / 128)
        (Nat.div_lt_self (Nat.pos_of_ne_zero fun hx => h (by simp [hx])) (by omega))
        (buf ++ [x % 128 ||| 128]) (count + 1)
      exact ⟨(x % 128 ||| 128) :: Y, by rw [hY]; simp⟩

/-- Helper: write_remaining_length only appends to the buffer. -/
theorem write_remaining_length_suffix (buf : List Nat) (len : Nat) :
    ∃ Y, (write_remaining_length buf len).1 = buf ++ Y := by
  unfold write_remaining_length
  split
  · exact ⟨[], by simp⟩
  · exact wrlLoop_suffix len buf 0

/-- Helper: FixedHeader::write only appends to the buffer. -/
theorem fixedHeaderWrite_suffix (h : FixedHeader) (buf : List Nat) :
    ∃ Y, (h.write buf).1 = buf ++ Y := by
  unfold FixedHeader.write
  dsimp only
  obtain ⟨Y, hY⟩ := write_remaining_length_suffix
    (buf ++ [h.packet_type.reprU8 <<< 4 ||| (h.flags.to_byte &&& 0x0F)])
    h.remaining_length
  rcases hw : write_remaining_length
      (buf ++ [h.packet_type.reprU8 <<< 4 ||| (h.flags.to_byte &&& 0x0F)])
      h.remaining_length with ⟨buf2, r⟩
  rw [hw] at hY
  dsimp only at hY
  refine ⟨(h.packet_type.reprU8 <<< 4 ||| (h.flags.to_byte &&& 0x0F)) :: Y, ?_⟩
  cases r <;> dsimp only <;> rw [hY] <;> simp

/-- Helper: ConnectVariableHeader::write only appends to the buffer. -/
theorem connectVariableHeaderWrite_suffix (vh : ConnectVariableHeader)
    (buf : List Nat) : ∃ Y, (vh.write buf).1 = buf ++ Y := by
  refine ⟨[(if vh.flags.clean_session then 0x02 else 0) |||
           (if vh.flags.will then 0x04 else 0) |||
           (if vh.flags.username then 0x80 else 0) |||
           (if vh.flags.password then 0x40 else 0)] ++ u16be vh.keepalive, ?_⟩
  simp [ConnectVariableHeader.write, ConnectFlags.write]

/-- Helper: the bytes of ConnectPayload::write are the optional client id
and will topic followed by three copies of the will message. -/
theorem connectPayloadWrite_eq (p : ConnectPayload) (buf : List Nat) :
    (p.write buf).1 = buf ++ optStringBytes p.client_id
      ++ optStringBytes p.will_topic ++ optStringBytes p.will_message
      ++ optStringBytes p.will_message ++ optStringBytes p.will_message := by
  obtain ⟨cid, wt, wm, u, pw⟩ := p
  cases cid <;> cases wt <;> cases wm <;>
    simp [ConnectPayload.write, optStringBytes, write_string, List.append_assoc]

/-- Helper: ConnectPayload::write only appends to the buffer. -/
theorem connectPayloadWrite_suffix (p : ConnectPayload) (buf : List Nat) :
    ∃ Y, (p.write buf).1 = buf ++ Y := by
  refine ⟨optStringBytes p.client_id ++ optStringBytes p.will_topic
    ++ optStringBytes p.will_message ++ optStringBytes p.will_message
    ++ optStringBytes p.will_message, ?_⟩
  rw [connectPayloadWrite_eq]
  simp [List.append_assoc]

/-- Helper: ConnectPacket::write only appends to the buffer. -/
theorem connectPacketWrite_suffix (c : ConnectPacket) (buf : List Nat) :
    ∃ Y, (c.write buf).1 = buf ++ Y := by
  unfold ConnectPacket.write
  obtain ⟨Y1, hY1⟩ := fixedHeaderWrite_suffix c.fixed_header buf
  rcases hw : c.fixed_header.write buf with ⟨buf1, r⟩
  rw [hw] at hY1
  dsimp only at hY1
  cases r
  · exact ⟨Y1, hY1⟩
  · obtain ⟨Y2, hY2⟩ := connectVariableHeaderWrite_suffix c.variable_header buf1
    obtain ⟨Y3, hY3⟩ := connectPayloadWrite_suffix c.payload
      (c.variable_header.write buf1).1
    refine ⟨Y1 ++ Y2 ++ Y3, ?_⟩
    dsimp only
    rw [hY3, hY2, hY1]
    simp

/-- Helper: SubscribePacket::write only appends to the buffer. -/
theorem subscribeWrite_suffix (packet_id : Nat)
    (topics : List SubscriptionTopic) (buf : List Nat) :
    ∃ Y, subscribeWrite packet_id topics buf = buf ++ Y := by
  unfold subscribeWrite
  suffices hgen : ∀ (ts : List SubscriptionTopic) (b : List Nat),
      ∃ Y, ts.foldl (fun b s => write_string b s.topic ++ [s.qos.toU8]) b = b ++ Y by
    obtain ⟨Y, hY⟩ := hgen topics (buf ++ u16be packet_id)
    exact ⟨u16be packet_id ++ Y, by rw [hY]; simp⟩
  intro ts
  induction ts with
  | nil => exact fun b => ⟨[], by simp⟩
  | cons t ts ih =>
    intro b
    obtain ⟨Y, hY⟩ := ih (write_string b t.topic ++ [t.qos.toU8])
    refine ⟨u16be t.topic.length ++ t.topic ++ [t.qos.toU8] ++ Y, ?_⟩
    rw [List.foldl_cons, hY]
    simp [write_string, List.append_assoc]

/-- Helper: PublishPacket::write only appends to the buffer. -/
theorem publishWrite_suffix (p : PublishPacket) (buf : List Nat) :
    ∃ Y, p.write buf = buf ++ Y := by
  unfold PublishPacket.write write_bytes
  split
  · exact ⟨u16be p.topic.length ++ p.topic ++ (u16be p.packet_id ++ p.payload),
      by simp [write_string, List.append_assoc]⟩
  · exact ⟨u16be p.topic.length ++ p.topic ++ p.payload,
      by simp [write_string, List.append_assoc]⟩

/-- Helper: a raw qos byte accepted by Qos::from equals the u8 value of
the resulting Qos. -/
theorem qosFromU8_toU8 {n : Nat} {q : Qos} (h : Qos.fromU8 n = some q) :
    n = q.toU8 := by
  rcases n with _ | _ | _ | m <;> simp [Qos.fromU8] at h <;>
    (subst h; rfl)

/-- C5: the control byte written first by Serialize::serialize is the wire
opcode of the Request variant: Connect 0x10, Puback 0x40, Pubrec 0x50,
Pubrel 0x62 (fixed, the variant carries no caller flags), Pubcomp 0x70,
Subscribe 0x80, Disconnect 0xE0, and Publish 0x30 with the QoS in bits
1-2; whatever the remaining-length step and the body then do, the first
byte placed after the original buffer is exactly this opcode. -/
theorem c5_control_byte_is_wire_opcode
    (req : Request) (buf : List Nat) (cb : Nat)
    (h : req.controlByte = some cb) :
    (∃ X, (req.serialize buf).1 = buf ++ cb :: X) ∧
    cb = (match req with
      | .connect _ _ => 0x10
      | .publish _ qos _ _ => 0x30 ||| (qos <<< 1)
      | .puback _ => 0x40
      | .pubrec _ => 0x50
      | .pubrel _ => 0x62
      | .pubcomp _ => 0x70
      | .subscribe _ _ => 0x80
      | .disconnect => 0xE0) := by
  cases req with
  | connect cid cs =>
    simp only [Request.controlByte, Option.some.injEq] at h
    subst h
    refine ⟨?_, rfl⟩
    unfold Request.serialize
    dsimp only [Request.controlByte]
    obtain ⟨Y, hY⟩ := write_remaining_length_suffix (buf ++ [0x10]) (10 + 2 + cid.length)
    rcases hw : write_remaining_length (buf ++ [0x10]) (10 + 2 + cid.length)
      with ⟨buf1, r⟩
    rw [hw] at hY
    dsimp only at hY
    cases r
    · exact ⟨Y, by dsimp only; rw [hY]; simp⟩
    · obtain ⟨Z, hZ⟩ := connectPacketWrite_suffix (ConnectPacket.new cid cs) buf1
      rcases hcw : (ConnectPacket.new cid cs).write buf1 with ⟨buf2, r2⟩
      rw [hcw] at hZ
      dsimp only at hZ
      cases r2 <;>
        exact ⟨Y ++ Z, by dsimp only; rw [hcw]; dsimp only; rw [hZ, hY]; simp⟩
  | publish pid qos topic payload =>
    rcases hq : Qos.fromU8 qos with _ | q
    · rw [Request.controlByte] at h
      rw [hq] at h
      simp at h
    · have hcb : cb = encode_qos 0x30 q := by
        rw [Request.controlByte, hq] at h
        simpa using h.symm
      have hqq := qosFromU8_toU8 hq
      constructor
      · unfold Request.serialize
        rw [Request.controlByte, hq]
        dsimp only [Option.map]
        rw [← hcb]
        obtain ⟨Y, hY⟩ := write_remaining_length_suffix (buf ++ [cb])
          (2 + topic.length + payload.length + if qos > 0 then 2 else 0)
        rcases hw : write_remaining_length (buf ++ [cb])
            (2 + topic.length + payload.length + if qos > 0 then 2 else 0)
          with ⟨buf1, r⟩
        rw [hw] at hY
        dsimp only at hY
        cases r
        · exact ⟨Y, by dsimp only; rw [hY]; simp⟩
        · obtain ⟨Z, hZ⟩ := publishWrite_suffix
            { packet_id := pid, qos := qos, topic := topic, payload := payload } buf1
          exact ⟨Y ++ Z, by dsimp only; rw [hZ, hY]; simp⟩
      · subst hcb hqq
        cases q <;> rfl
  | puback pid =>
    simp only [Request.controlByte, Option.some.injEq] at h
    subst h
    refine ⟨?_, rfl⟩
    unfold Request.serialize
    dsimp only [Request.controlByte]
    obtain ⟨Y, hY⟩ := write_remaining_length_suffix (buf ++ [0x40]) 2
    rcases hw : write_remaining_length (buf ++ [0x40]) 2 with ⟨buf1, r⟩
    rw [hw] at hY
    dsimp only at hY
    cases r
    · exact ⟨Y, by dsimp only; rw [hY]; simp⟩
    · exact ⟨Y ++ u16be pid, by dsimp only [pubackWrite]; rw [hY]; simp⟩
  | pubrec pid =>
    simp only [Request.controlByte, Option.some.injEq] at h
    subst h
    refine ⟨?_, rfl⟩
    unfold Request.serialize
    dsimp only [Request.controlByte]
    obtain ⟨Y, hY⟩ := write_remaining_length_suffix (buf ++ [0x50]) 2
    rcases hw : write_remaining_length (buf ++ [0x50]) 2 with ⟨buf1, r⟩
    rw [hw] at hY
    dsimp only at hY
    cases r
    · exact ⟨Y, by dsimp only; rw [hY]; simp⟩
    · exact ⟨Y ++ u16be pid, by dsimp only [pubrecWrite]; rw [hY]; simp⟩
  | pubrel pid =>
    simp only [Request.controlByte, Option.some.injEq] at h
    subst h
    refine ⟨?_, rfl⟩
    unfold Request.serialize
    dsimp only [Request.controlByte]
    obtain ⟨Y, hY⟩ := write_remaining_length_suffix (buf ++ [0x62]) 2
    rcases hw : write_remaining_length (buf ++ [0x62]) 2 with ⟨buf1, r⟩
    rw [hw] at hY
    dsimp only at hY
    cases r
    · exact ⟨Y, by dsimp only; rw [hY]; simp⟩
    · exact ⟨Y ++ u16be pid, by dsimp only [pubrelWrite]; rw [hY]; simp⟩
  | pubcomp pid =>
    simp only [Request.controlByte, Option.some.injEq] at h
    subst h
    refine ⟨?_, rfl⟩
    unfold Request.serialize
    dsimp only [Request.controlByte]
    obtain ⟨Y, hY⟩ := write_remaining_length_suffix (buf ++ [0x70]) 2
    rcases hw : write_remaining_length (buf ++ [0x70]) 2 with ⟨buf1, r⟩
    rw [hw] at hY
    dsimp only at hY
    cases r
    · exact ⟨Y, by dsimp only; rw [hY]; simp⟩
    · exact ⟨Y ++ u16be pid, by dsimp only [pubcompWrite]; rw [hY]; simp⟩
  | subscribe pid topics =>
    simp only [Request.controlByte, Option.some.injEq] at h
    subst h
    refine ⟨?_, rfl⟩
    unfold Request.serialize
    dsimp only [Request.controlByte]
    obtain ⟨Y, hY⟩ := write_remaining_length_suffix (buf ++ [0x80])
      (2 + (topics.map (fun s => 2 + s.topic.length)).sum)
    rcases hw : write_remaining_length (buf ++ [0x80])
        (2 + (topics.map (fun s => 2 + s.topic.length)).sum) with ⟨buf1, r⟩
    rw [hw] at hY
    dsimp only at hY
    cases r
    · exact ⟨Y, by dsimp only; rw [hY]; simp⟩
    · obtain ⟨Z, hZ⟩ := subscribeWrite_suffix pid topics buf1
      exact ⟨Y ++ Z, by dsimp only; rw [hZ, hY]; simp⟩
  | disconnect =>
    simp only [Request.controlByte, Option.some.injEq] at h
    subst h
    refine ⟨?_, rfl⟩
    unfold Request.serialize
    dsimp only [Request.controlByte]
    obtain ⟨Y, hY⟩ := write_remaining_length_suffix (buf ++ [0xE0]) 0
    rcases hw : write_remaining_length (buf ++ [0xE0]) 0 with ⟨buf1, r⟩
    rw [hw] at hY
    dsimp only at hY
    cases r <;> exact ⟨Y, by dsimp only; rw [hY]; simp⟩

/-- Witness for C5 at the QoS-1 Publish request: the control byte is
0x32 and it is the first byte written. -/
theorem c5_control_byte_is_wire_opcode_witness :
    (Request.publish 1 1 [97] [7]).controlByte = some 0x32 ∧
    ((∃ X, ((Request.publish 1 1 [97] [7]).serialize []).1 = [] ++ 0x32 :: X) ∧
      (0x32 : Nat) = 0x30 ||| ((1 : Nat) <<< 1)) :=
  ⟨rfl, c5_control_byte_is_wire_opcode (.publish 1 1 [97] [7]) [] 0x32 rfl⟩

end Sake
